import Mathlib

/-!
Verification of the opcode agent-supervisor core against its specification.

Rust sources are shallowly embedded: Rust `String` becomes Lean `String`
(or `List Char` where per-character processing matters), Rust integers become
`Int`/`Nat` with explicit bounds where overflow matters, fallible functions
return `Except`/`Option`, and SQLite rows become explicit record values.
Each definition is transcribed from the named source function.
-/

namespace Opcode

/-- ASCII lowercasing of one character, as Rust `char::to_ascii_lowercase`. -/
def asciiLowerChar (c : Char) : Char :=
  if 'A' ≤ c ∧ c ≤ 'Z' then Char.ofNat (c.toNat + 32) else c

/-- ASCII lowercasing of a string, as Rust `str::to_ascii_lowercase`. -/
def asciiLower (s : String) : List Char :=
  s.data.map asciiLowerChar

/-- Rust `str::starts_with` on character lists (pattern first). -/
def leadsWith : List Char → List Char → Bool
  | [], _ => true
  | _ :: _, [] => false
  | p :: ps, c :: cs => p == c && leadsWith ps cs

/-- Rust `str::contains` (substring search) on character lists. -/
def hasSub : List Char → List Char → Bool
  | [], pat => leadsWith pat []
  | s@(_ :: t), pat => leadsWith pat s || hasSub t pat

/-- Rust `str::eq_ignore_ascii_case`. -/
def eqIgnoreAsciiCase (s t : String) : Bool :=
  s.data.map asciiLowerChar == t.data.map asciiLowerChar

/-- Rust `str::trim`: strip leading and trailing whitespace. -/
def rustTrim (s : String) : String :=
  String.mk
    (((s.data.dropWhile Char.isWhitespace).reverse.dropWhile
      Char.isWhitespace).reverse)

/-! ## C7: Mobile Sync resnapshot predicate (`mobile_sync/server.rs`) -/

/-- Maximum value of a Rust `u64`. -/
def u64Max : Nat := 2 ^ 64 - 1

/-- Rust `u64::saturating_add` on values already known to be in range. -/
def saturatingAddU64 (a b : Nat) : Nat := min (a + b) u64Max

/-- Source `fn requires_resnapshot(since: u64, current_sequence: u64) -> bool`
from `mobile_sync/server.rs`: `since.saturating_add(1) < current_sequence`. -/
def requires_resnapshot (since currentSequence : Nat) : Bool :=
  saturatingAddU64 since 1 < currentSequence

/-- Payload of the immediate resync envelope sent by `websocket_loop`. -/
structure ResyncPayload where
  reason : String
  since : Nat
deriving DecidableEq, Repr

/-- Initial catch-up decision of `websocket_loop` in `mobile_sync/server.rs`:
before entering the forwarding loop it sends a single
`sync.resnapshot_required` envelope with reason `sequence_gap` exactly when
`requires_resnapshot(since, current_sequence)` holds. -/
def websocketInitialResync (since currentSequence : Nat) : Option ResyncPayload :=
  if requires_resnapshot since currentSequence then
    some { reason := "sequence_gap", since := since }
  else
    none

/-! ## C2: supervisor first-output timeout (`commands/agents.rs`) -/

/-- Initial value of the `first_output` flag in `spawn_agent_system`:
`AtomicBool::new(provider_id != "claude")`. -/
def firstOutputInit (providerId : String) : Bool :=
  providerId != "claude"

/-- Value of the shared `first_output` flag at monitor poll `i`: the initial
value, or true once the stdout task has read a first line by that poll.
`outputSeenBy i` says whether any stdout line arrived before poll `i`. -/
def firstOutputAt (providerId : String) (outputSeenBy : Nat → Bool) (i : Nat) : Bool :=
  firstOutputInit providerId || outputSeenBy i

/-- Monitor task of `spawn_agent_system`: poll the `first_output` flag 300
times (100 ms apart, 30 s total); the timeout branch (TERM/KILL the pid, mark
the row failed, unregister, emit `agent-complete` false) is taken iff the flag
is still unset at every poll. -/
def monitorTimesOut (providerId : String) (outputSeenBy : Nat → Bool) : Bool :=
  (List.range 300).all fun i => !(firstOutputAt providerId outputSeenBy i)

/-- Persisted agent run row (the columns touched by supervision). -/
structure AgentRunRow where
  status : String
  pid : Option Int
  output : String
  completedAt : Bool
deriving DecidableEq, Repr

/-- Database update performed by the monitor timeout branch:
`UPDATE agent_runs SET output = ?, status = 'failed', completed_at = ... WHERE
id = ? AND status = 'running'`. -/
def timeoutRowUpdate (liveOutput : String) (row : AgentRunRow) : AgentRunRow :=
  if row.status = "running" then
    { row with status := "failed", output := liveOutput, completedAt := true }
  else
    row

/-! ## C1: exit classification (`commands/agents.rs`, `web_server.rs`) -/

/-- Exit status of a waited child process (Unix): a normal exit with a code,
or termination by a signal (whence `code()` is `None`). -/
inductive ExitStatus where
  | exited (code : Int)
  | signaled (signal : Int)
deriving DecidableEq, Repr

/-- Rust `ExitStatus::success()`. -/
def ExitStatus.success : ExitStatus → Bool
  | .exited c => c == 0
  | .signaled _ => false

/-- Rust `ExitStatus::code()`. -/
def ExitStatus.code : ExitStatus → Option Int
  | .exited c => some c
  | .signaled _ => none

/-- Decimal digit character for one digit value. -/
def digitChar (d : Nat) : Char :=
  if d = 0 then '0' else if d = 1 then '1' else if d = 2 then '2'
  else if d = 3 then '3' else if d = 4 then '4' else if d = 5 then '5'
  else if d = 6 then '6' else if d = 7 then '7' else if d = 8 then '8' else '9'

/-- Fuelled decimal rendering of a natural number (most significant first).
The fuel only bounds recursion depth; `natDecimalChars` supplies enough. -/
def natDecimalCharsAux : Nat → Nat → List Char
  | 0, _ => []
  | fuel + 1, n =>
    if n < 10 then [digitChar n]
    else natDecimalCharsAux fuel (n / 10) ++ [digitChar (n % 10)]

/-- Decimal rendering of a natural number, as in Rust formatting. -/
def natDecimalChars (n : Nat) : List Char := natDecimalCharsAux (n + 1) n

/-- Rust `{}`/`{:?}` rendering of an `i32`. -/
def intDecimal (i : Int) : String :=
  if i < 0 then String.mk ('-' :: natDecimalChars i.natAbs)
  else String.mk (natDecimalChars i.natAbs)

/-- Rust `{:?}` rendering of an `Option<i32>`. -/
def debugOptionCode : Option Int → String
  | some c => "Some(" ++ intDecimal c ++ ")"
  | none => "None"

/-- Source `fn map_exit_status_to_result` from `web_server.rs`: success maps
to `Ok(())`, exit codes 130/143 to a "cancelled" error message, anything else
to a "failed" error message. -/
def map_exit_status_to_result (st : ExitStatus) : Except String Unit :=
  if st.success then .ok ()
  else if st.code = some 130 ∨ st.code = some 143 then
    .error ("Provider session cancelled (exit code: " ++ debugOptionCode st.code ++ ")")
  else
    .error ("Provider session execution failed with exit code: " ++ debugOptionCode st.code)

/-- Completion payload status of a provider session (`web_server.rs`). -/
inductive ProviderSessionCompletionStatus where
  | success
  | error
  | cancelled
deriving DecidableEq, Repr

/-- Source `fn completion_status_for_result` from `web_server.rs`: `Ok` is
success; an error whose ASCII-lowercase form contains "cancelled",
"canceled" or "interrupted" is cancelled; any other error is error. -/
def completion_status_for_result (r : Except String Unit) :
    ProviderSessionCompletionStatus :=
  match r with
  | .ok _ => .success
  | .error e =>
    let lowered := asciiLower e
    if hasSub lowered "cancelled".data || hasSub lowered "canceled".data
        || hasSub lowered "interrupted".data then
      .cancelled
    else
      .error

/-- Final row update of the monitor task in `spawn_agent_system`
(`commands/agents.rs`): `UPDATE agent_runs SET session_id = ?, output = ?,
status = <completed|failed>, completed_at = ... WHERE id = ? AND
status = 'running'`, with the status chosen only from
`ExitStatus::success()`. -/
def spawnAgentFinalUpdate (processSuccess : Bool) (finalOutput : String)
    (row : AgentRunRow) : AgentRunRow :=
  if row.status = "running" then
    { row with
      status := if processSuccess then "completed" else "failed",
      output := finalOutput,
      completedAt := true }
  else
    row

/-- Characters that can appear in a decimal integer rendering. -/
def decimalMidChars : List Char := ['0', '1', '2', '3', '4', '5', '6', '7', '8', '9', '-']

/-! ## C3/C4: provider argv builders (`commands/agents.rs`, `providers/`) -/

/-- Command kinds of `providers/runtime.rs` (`Execute`, `Continue`, `Resume`). -/
inductive ProviderCommandKind where
  | execute
  | cont
  | resume
deriving DecidableEq, Repr

/-- Request shape of `providers/runtime.rs::ProviderCommandRequest`. -/
structure ProviderCommandRequest where
  kind : ProviderCommandKind
  prompt : String
  model : String
  session_id : Option String
  reasoning_effort : Option String

/-- Source `fn append_optional_model_arg` from `providers/runtime.rs`: append
`--model <trimmed>` unless the trimmed model is empty or case-insensitively
"default". -/
def append_optional_model_arg (args : List String) (model : String) : List String :=
  let trimmed := rustTrim model
  if trimmed.isEmpty || eqIgnoreAsciiCase trimmed "default" then args
  else args ++ ["--model", trimmed]

/-- Source `fn sanitize_reasoning_effort` (identical in `providers/runtime.rs`
and `commands/agents.rs`): trim, drop empty, ASCII-lowercase, and keep only
the six known effort levels. -/
def sanitize_reasoning_effort (reasoningEffort : Option String) : Option String :=
  match (reasoningEffort.map rustTrim |>.filter (fun v => !v.isEmpty)).map
      (fun v => String.mk (asciiLower v)) with
  | some v =>
    match v with
    | "none" => some "none"
    | "minimal" => some "minimal"
    | "low" => some "low"
    | "medium" => some "medium"
    | "high" => some "high"
    | "xhigh" => some "xhigh"
    | _ => none
  | none => none

/-- Source `fn build_args` from `providers/claude.rs` (the registry builder):
kind-specific head, optional `--model`, then the fixed tail. -/
def claude_build_args (request : ProviderCommandRequest) : Except String (List String) := do
  let args : List String ←
    match request.kind with
    | .execute => pure ["-p", request.prompt]
    | .cont => pure ["-c", "-p", request.prompt]
    | .resume =>
      match (request.session_id.map rustTrim).filter (fun v => !v.isEmpty) with
      | some sid => pure ["--resume", sid, "-p", request.prompt]
      | none => throw "Missing provider session id for resume"
  let args := append_optional_model_arg args request.model
  pure (args ++ ["--output-format", "stream-json", "--verbose",
    "--dangerously-skip-permissions"])

/-- Model names excluded by the codex builder (`providers/codex.rs`). -/
def codexClaudeModels : List String := ["default", "sonnet", "opus", "haiku", "claude"]

/-- Source `fn build_args` from `providers/codex.rs`: `exec --json <prompt>`,
then `--model <m>` when the model is non-empty and its ASCII-lowercase form
contains none of the excluded names as a substring, then the optional
sanitized reasoning-effort `-c` pair. -/
def codex_build_args (request : ProviderCommandRequest) : Except String (List String) :=
  let args := ["exec", "--json", request.prompt]
  let args :=
    if !request.model.isEmpty
        && !(codexClaudeModels.any fun v => hasSub (asciiLower request.model) v.data) then
      args ++ ["--model", request.model]
    else args
  let args :=
    match sanitize_reasoning_effort request.reasoning_effort with
    | some effort => args ++ ["-c", "model_reasoning_effort=\"" ++ effort ++ "\""]
    | none => args
  .ok args

/-- Source `fn build_provider_args` from `commands/agents.rs`: the argv the
desktop supervisor builds before `spawn_agent_system`. Note the claude branch
always inserts `--system-prompt <system_prompt-or-empty>` after the prompt. -/
def build_provider_args (providerId task model : String) (systemPrompt : Option String)
    (reasoningEffort : Option String) : List String :=
  let model := rustTrim model
  let hasExplicitModel := !model.isEmpty && !(eqIgnoreAsciiCase model "default")
  match providerId with
  | "claude" =>
    let args := ["-p", task, "--system-prompt", systemPrompt.getD ""]
    let args := if hasExplicitModel then args ++ ["--model", model] else args
    args ++ ["--output-format", "stream-json", "--verbose",
      "--dangerously-skip-permissions"]
  | "codex" =>
    let args := ["exec", "--json", task]
    let args := if hasExplicitModel then args ++ ["--model", model] else args
    match sanitize_reasoning_effort reasoningEffort with
    | some effort => args ++ ["-c", "model_reasoning_effort=\"" ++ effort ++ "\""]
    | none => args
  | "aider" =>
    let args := ["--message", task, "--yes"]
    if hasExplicitModel then args ++ ["--model", model] else args
  | "gemini" =>
    let args := ["--prompt", task, "--approval-mode", "yolo",
      "--output-format", "stream-json"]
    if hasExplicitModel then args ++ ["--model", model] else args
  | "goose" =>
    let args := ["run", "--text", task, "--no-session",
      "--output-format", "stream-json"]
    if hasExplicitModel then args ++ ["--model", model] else args
  | "opencode" =>
    let args := ["run", task]
    if hasExplicitModel then args ++ ["--model", model] else args
  | _ => [task]

/-! ## C5: kill_agent_session (`commands/agents.rs`) -/

/-- Error string of rusqlite `QueryReturnedNoRows` propagated by
`kill_agent_session` when the pid fallback query matches no row. -/
def rusqliteNoRows : String := "Query returned no rows"

/-- Cancellation update of `kill_agent_session`: `UPDATE agent_runs SET
status = 'cancelled', output = CASE WHEN ? != '' THEN ? ELSE output END,
completed_at = ... WHERE id = ? AND status = 'running'`; returns the number
of affected rows with the updated row. -/
def cancelRowUpdate (liveOutput : String) (row : Option AgentRunRow) :
    Nat × Option AgentRunRow :=
  match row with
  | some r =>
    if r.status = "running" then
      (1, some { r with
        status := "cancelled",
        output := if liveOutput ≠ "" then liveOutput else r.output,
        completedAt := true })
    else (0, some r)
  | none => (0, none)

/-- Source `kill_agent_session` from `commands/agents.rs`, over one run row.
`registryKillSucceeded` stands for the result of the registry kill attempt;
the process registry itself (`process.rs`) is declared in `lib.rs` but absent
from the sources, so its kill-by-run-id is modelled from the spec: the
registry is an in-memory map of live runs, and killing an unregistered run
reports failure. When the registry kill fails, the fallback reads the pid via
`SELECT pid FROM agent_runs WHERE id = ? AND status = 'running'` and
propagates `QueryReturnedNoRows` with `?` when no row matches; the pid-based
kill itself is modelled as succeeding. The function then runs the
cancellation UPDATE and reports `updated > 0 || killed_via_registry`. -/
def kill_agent_session (registryKillSucceeded : Bool) (liveOutput : String)
    (row : Option AgentRunRow) : Except String (Bool × Option AgentRunRow) := do
  let killedViaRegistry := registryKillSucceeded
  if !killedViaRegistry then
    let _pid : Option Int ←
      match row with
      | some r => if r.status = "running" then pure r.pid else throw rusqliteNoRows
      | none => throw rusqliteNoRows
    pure ()
  let (updated, rowAfter) := cancelRowUpdate liveOutput row
  pure (decide (updated > 0) || killedViaRegistry, rowAfter)

/-! ## JSON values (serde_json `Value`) -/

/-- A serde_json `Value`. Numbers are modelled as integers; the code under
verification only reads them through `as_u64` and only writes token counts. -/
inductive Json where
  | null
  | bool (b : Bool)
  | num (n : Int)
  | str (s : String)
  | arr (items : List Json)
  | obj (fields : List (String × Json))

namespace Json

/-- serde_json `Value::get` for object keys (first matching key). -/
def getKey : Json → String → Option Json
  | .obj fields, key => fields.lookup key
  | _, _ => none

/-- serde_json `Value::as_str`. -/
def asStr : Json → Option String
  | .str s => some s
  | _ => none

/-- serde_json `Value::as_u64` (numbers are in range iff non-negative here). -/
def asU64 : Json → Option Nat
  | .num n => if 0 ≤ n then some n.toNat else none
  | _ => none

/-- serde_json `Value::as_array`. -/
def asArr : Json → Option (List Json)
  | .arr items => some items
  | _ => none

end Json

/-! ## C6: Mobile Sync broker sequences (`mobile_sync/state_cache.rs`) -/

/-- Wire envelope of `mobile_sync/protocol.rs` (`generated_at` omitted:
wall-clock time does not affect the claims). -/
structure EventEnvelopeV1 where
  version : Nat
  sequence : Nat
  event_type : String
  payload : Json

/-- Snapshot of `mobile_sync/protocol.rs` (`generated_at` omitted). -/
structure SnapshotV1 where
  version : Nat
  sequence : Nat
  state : Json

/-- Reduction of a value to the `u64` range, as wrapping Rust arithmetic. -/
def u64Wrap (n : Nat) : Nat := n % 2 ^ 64

/-- Source `MobileSyncCache::next_sequence`:
`sequence.fetch_add(1, Relaxed) + 1` on an `AtomicU64` — `fetch_add` stores
the wrapped `seq + 1` and returns the old value, and the trailing `+ 1`
wraps the same way (release-build semantics), so the new counter and the
value handed to the emission are both `(seq + 1) mod 2^64`. -/
def next_sequence (seq : Nat) : Nat × Nat :=
  (u64Wrap (seq + 1), u64Wrap (seq + 1))

/-- Source `MobileSyncCache::publish_event`: allocate the next sequence and
send the envelope; returns the new counter with the envelope. -/
def publish_event (seq : Nat) (eventType : String) (payload : Json) :
    Nat × EventEnvelopeV1 :=
  let (seq', n) := next_sequence seq
  (seq', { version := 1, sequence := n, event_type := eventType, payload })

/-- Source `MobileSyncCache::publish_snapshot`: allocate the next sequence
for the snapshot, store it, then publish a `snapshot.updated` event whose
payload is `{"sequence": snapshot.sequence}`. -/
def publish_snapshot (seq : Nat) (state : Json) :
    Nat × (SnapshotV1 × EventEnvelopeV1) :=
  let (seq', n) := next_sequence seq
  let snapshot : SnapshotV1 := { version := 1, sequence := n, state := state }
  let (seq'', env) := publish_event seq' "snapshot.updated"
    (Json.obj [("sequence", Json.num (snapshot.sequence : Int))])
  (seq'', (snapshot, env))

/-- One emission of the broker, as observed by subscribers/readers. -/
inductive BrokerEmission where
  | snapshot (s : SnapshotV1)
  | event (e : EventEnvelopeV1)

/-- Sequence number carried by an emission. -/
def BrokerEmission.seq : BrokerEmission → Nat
  | .snapshot s => s.sequence
  | .event e => e.sequence

/-- One broker operation. -/
inductive BrokerOp where
  | snapshotOp (state : Json)
  | eventOp (eventType : String) (payload : Json)

/-- Run a sequence of broker operations from counter value `seq`, collecting
every emission in order. -/
def brokerRun : Nat → List BrokerOp → List BrokerEmission
  | _, [] => []
  | seq, .eventOp ty p :: rest =>
    let (seq', env) := publish_event seq ty p
    .event env :: brokerRun seq' rest
  | seq, .snapshotOp st :: rest =>
    let (seq', pair) := publish_snapshot seq st
    .snapshot pair.1 :: .event pair.2 :: brokerRun seq' rest

/-- Number of emissions an operation produces. -/
def BrokerOp.emissions : BrokerOp → Nat
  | .snapshotOp _ => 2
  | .eventOp _ _ => 1

/-- Total number of emissions of an operation list. -/
def brokerEmissionTotal (ops : List BrokerOp) : Nat :=
  (ops.map BrokerOp.emissions).sum

/-! ## C8/C10: usage indexer (`usage_index/sync.rs`, `usage_index/query.rs`) -/

/-- A `usage_events` row (`usage_index/schema.rs`). The `cost` column is an
SQLite REAL; it is modelled as an integer since no claim concerns cost
arithmetic. -/
structure UsageEventRow where
  event_uid : String
  source_path : String
  source_line : Int
  timestamp : String
  event_date : String
  model : String
  input_tokens : Int
  output_tokens : Int
  cache_creation_tokens : Int
  cache_read_tokens : Int
  cost : Int
  session_id : String
  project_path : String
  project_name : String
deriving DecidableEq, Repr

/-- A `source_files` cursor row (`usage_index/schema.rs`), the fields read by
`process_file`. -/
structure SourceFileRow where
  size_bytes : Int
  modified_unix_ms : Int
  last_offset : Int
  last_line : Int
deriving DecidableEq, Repr

/-- Head of source `fn process_file` from `usage_index/sync.rs`: given the
file's current size and mtime and the stored cursor row, decide whether the
file was truncated (`size < last_offset`) or rewritten in place
(`size = prior size ∧ mtime ≠ prior mtime`); if so delete every
`usage_events` row with this `source_path` and restart the cursor at offset 0
and line 0, otherwise resume from the stored offset and line. Returns the
surviving events with the start offset and start line. -/
def process_file_start (events : List UsageEventRow) (sourcePath : String)
    (sizeBytes modifiedUnixMs : Int) (existing : Option SourceFileRow) :
    List UsageEventRow × Int × Int :=
  match existing with
  | some row =>
    let truncated := sizeBytes < row.last_offset
    let rewrittenSameSize :=
      sizeBytes = row.size_bytes ∧ modifiedUnixMs ≠ row.modified_unix_ms
    if truncated ∨ rewrittenSameSize then
      (events.filter (fun e => e.source_path ≠ sourcePath), 0, 0)
    else
      (events, row.last_offset, row.last_line)
  | none => (events, 0, 0)

/-- Result row shape of `query_session_stats` (`ProjectUsage` in
`usage_index/mod.rs`). -/
structure ProjectUsage where
  project_path : String
  project_name : String
  total_cost : Int
  total_tokens : Nat
  session_count : Nat
  last_used : String
deriving DecidableEq, Repr

/-- Cap applied to `limit` parameters in `usage_index/query.rs`. -/
def MAX_LIMIT : Nat := 500

/-- Lexicographic strict order on character lists (SQLite text ordering). -/
def strLtChars : List Char → List Char → Bool
  | [], [] => false
  | [], _ :: _ => true
  | _ :: _, [] => false
  | a :: as, b :: bs =>
    if a.toNat < b.toNat then true
    else if b.toNat < a.toNat then false
    else strLtChars as bs

/-- Lexicographic `s ≤ t` on strings (SQLite text ordering). -/
def strLeB (s t : String) : Bool := !(strLtChars t.data s.data)

/-- Larger of two strings in the SQLite text ordering. -/
def strMax (s t : String) : String := if strLeB s t then t else s

/-- Date-range filter of `query_session_stats`
(`AND event_date >= ?` / `AND event_date <= ?`). -/
def sessionStatsFiltered (events : List UsageEventRow)
    (sinceDate untilDate : Option String) : List UsageEventRow :=
  events.filter fun e =>
    (match sinceDate with
     | some since => strLeB since e.event_date
     | none => true)
    && (match untilDate with
     | some until_ => strLeB e.event_date until_
     | none => true)

/-- SQL `MAX(timestamp)` over a group, with `COALESCE(…, '')`. -/
def groupMaxTimestamp (group : List UsageEventRow) : String :=
  (group.map UsageEventRow.timestamp).foldl strMax ""

/-- One `GROUP BY (project_path, session_id)` output row of
`query_session_stats`: note column 1 of the SELECT is `session_id`, read into
the `project_name` field, and column 7 is `COUNT(*)`, read into
`session_count` (clamped at zero and cast to u64). -/
def sessionStatsRow (filtered : List UsageEventRow) (key : String × String) :
    ProjectUsage :=
  let group := filtered.filter fun e =>
    e.project_path == key.1 && e.session_id == key.2
  { project_path := key.1
    project_name := key.2
    total_cost := (group.map UsageEventRow.cost).sum
    total_tokens :=
      ((group.map UsageEventRow.input_tokens).sum).toNat
        + ((group.map UsageEventRow.output_tokens).sum).toNat
        + ((group.map UsageEventRow.cache_creation_tokens).sum).toNat
        + ((group.map UsageEventRow.cache_read_tokens).sum).toNat
    session_count := ((group.length : Int)).toNat
    last_used := groupMaxTimestamp group }

/-- Insert into a list sorted by `le` (model of the SQL ORDER BY). -/
def orderedInsertBy (le : ProjectUsage → ProjectUsage → Bool) (a : ProjectUsage) :
    List ProjectUsage → List ProjectUsage
  | [] => [a]
  | b :: l => if le a b then a :: b :: l else b :: orderedInsertBy le a l

/-- Insertion sort by `le` (model of the SQL ORDER BY; any stable total sort
is a faithful model of the database ordering). -/
def sortRowsBy (le : ProjectUsage → ProjectUsage → Bool) :
    List ProjectUsage → List ProjectUsage
  | [] => []
  | a :: l => orderedInsertBy le a (sortRowsBy le l)

/-- Source `fn query_session_stats` from `usage_index/query.rs` over the
`usage_events` table: filter by date range, group by
`(project_path, session_id)`, order by `MAX(timestamp)` ascending when
`order = "asc"` else descending, then apply `LIMIT min(limit, 500)` and
`OFFSET offset`. -/
def query_session_stats (events : List UsageEventRow)
    (sinceDate untilDate : Option String) (order : Option String)
    (limit offset : Option Nat) : List ProjectUsage :=
  let filtered := sessionStatsFiltered events sinceDate untilDate
  let keys := (filtered.map fun e => (e.project_path, e.session_id)).dedup
  let rows := keys.map (sessionStatsRow filtered)
  let sorted :=
    if order.getD "desc" = "asc" then
      sortRowsBy (fun a b => strLeB a.last_used b.last_used) rows
    else
      sortRowsBy (fun a b => strLeB b.last_used a.last_used) rows
  let cappedLimit := min (limit.getD MAX_LIMIT) MAX_LIMIT
  let resolvedOffset := offset.getD 0
  (sorted.drop resolvedOffset).take cappedLimit

/-! ## C9: codex stream transform (`commands/codex_transform.rs`)

The Rust functions build JSON with `serde_json::json!` and serialize it with
`to_string()`; the embedding returns the JSON value itself, standing for the
serialized string. -/

/-- Source `fn wrap_as_text`: the Claude assistant message envelope around a
text string. -/
def wrap_as_text (text : String) : Json :=
  .obj [("type", .str "assistant"),
    ("message", .obj [("content",
      .arr [.obj [("type", .str "text"), ("text", .str text)]])])]

/-- Result envelope built by the `turn.completed` / `response.completed`
branches of `transform_codex_line`. -/
def mkUsageResult (inputTokens outputTokens : Nat) : Json :=
  .obj [("type", .str "result"),
    ("usage", .obj [("input_tokens", .num (inputTokens : Int)),
      ("output_tokens", .num (outputTokens : Int))])]

/-- Source `fn extract_text_from_item`: direct `text` field, then the
`content` array (types `text`/`output_text`), then `message.text` /
`message.content`. -/
def extract_text_from_item (item : Json) : String :=
  let direct :=
    match (item.getKey "text").bind Json.asStr with
    | some text => if text.isEmpty then none else some text
    | none => none
  match direct with
  | some t => t
  | none =>
    let fromContent :=
      match (item.getKey "content").bind Json.asArr with
      | some content =>
        let parts := (content.filter fun c =>
            let t := ((c.getKey "type").bind Json.asStr).getD ""
            t == "text" || t == "output_text").filterMap
          fun c => (c.getKey "text").bind Json.asStr
        if parts.isEmpty then none else some (String.intercalate "\n" parts)
      | none => none
    match fromContent with
    | some t => t
    | none =>
      match item.getKey "message" with
      | some message =>
        match (message.getKey "text").bind Json.asStr with
        | some text => text
        | none =>
          match (message.getKey "content").bind Json.asStr with
          | some content => content
          | none => ""
      | none => ""

/-- Source `fn transform_item_completed`: dispatch on `item.type`. -/
def transform_item_completed (event : Json) : Option Json :=
  match event.getKey "item" with
  | none => none
  | some item =>
    let itemType := ((item.getKey "type").bind Json.asStr).getD ""
    match itemType with
    | "agent_message" | "message" =>
      let text := extract_text_from_item item
      if text.isEmpty then none else some (wrap_as_text text)
    | "reasoning" =>
      let text := extract_text_from_item item
      if text.isEmpty then none
      else some (wrap_as_text ("[thinking] " ++ text))
    | "command_execution" | "function_call" =>
      let cmd := (((item.getKey "command") <|> (item.getKey "name")).bind
        Json.asStr).getD ""
      let output := ((item.getKey "output").bind Json.asStr).getD ""
      let text :=
        if output.isEmpty then "$ " ++ cmd
        else "$ " ++ cmd ++ "\n" ++ output
      some (wrap_as_text text)
    | _ =>
      let text := extract_text_from_item item
      if text.isEmpty then none else some (wrap_as_text text)

/-- Source `fn try_extract_text_from_value`: common top-level text fields,
then the nested `item`, then `response.output[].content[].text`. -/
def try_extract_text_from_value (value : Json) : Option String :=
  let fromTop := (["text", "delta", "content", "message", "output", "data"].filterMap
    fun key =>
      match (value.getKey key).bind Json.asStr with
      | some s => if s.isEmpty then none else some s
      | none => none).head?
  match fromTop with
  | some s => some s
  | none =>
    let fromItem :=
      match value.getKey "item" with
      | some item =>
        let text := extract_text_from_item item
        if text.isEmpty then none else some text
      | none => none
    match fromItem with
    | some t => some t
    | none =>
      match (value.getKey "response").bind
          (fun r => (r.getKey "output").bind Json.asArr) with
      | some output =>
        let texts := output.flatMap fun item =>
          match (item.getKey "content").bind Json.asArr with
          | some content => content.filterMap fun c => (c.getKey "text").bind Json.asStr
          | none => []
        let combined := texts.foldl
          (fun acc t => if acc.isEmpty then acc ++ t else acc ++ "\n" ++ t) ""
        if combined.isEmpty then none else some combined
      | none => none

/-- One stdout line as seen by `transform_codex_line`, after the trim and
JSON-parse steps: a line whose trim is empty, a trimmed line that is not
JSON, or a trimmed line parsed to a JSON value. -/
inductive CodexLine where
  | empty
  | notJson (trimmed : String)
  | jsonLine (event : Json)

/-- Source `fn transform_codex_line`: skip empty lines, wrap non-JSON lines
as assistant text, and dispatch JSON events on their `type`. -/
def transform_codex_line : CodexLine → Option Json
  | .empty => none
  | .notJson trimmed => some (wrap_as_text trimmed)
  | .jsonLine event =>
    let eventType := ((event.getKey "type").bind Json.asStr).getD ""
    match eventType with
    | "thread.started" | "turn.started" => none
    | "item.completed" => transform_item_completed event
    | "turn.completed" =>
      let inputTokens := (((event.getKey "usage").bind
        (fun u => u.getKey "input_tokens")).bind Json.asU64).getD 0
      let outputTokens := (((event.getKey "usage").bind
        (fun u => u.getKey "output_tokens")).bind Json.asU64).getD 0
      some (mkUsageResult inputTokens outputTokens)
    | "response.output_text.delta" =>
      let delta := ((event.getKey "delta").bind Json.asStr).getD ""
      if delta.isEmpty then none else some (wrap_as_text delta)
    | "response.output_text.done" =>
      let text := ((event.getKey "text").bind Json.asStr).getD ""
      if text.isEmpty then none else some (wrap_as_text text)
    | "response.output_item.done" =>
      match event.getKey "item" with
      | some item =>
        let texts :=
          match (item.getKey "content").bind Json.asArr with
          | some content =>
            (content.filter fun c =>
              ((c.getKey "type").bind Json.asStr) == some "output_text").filterMap
              fun c => (c.getKey "text").bind Json.asStr
          | none => []
        if !texts.isEmpty then some (wrap_as_text (String.intercalate "\n" texts))
        else
          match (item.getKey "text").bind Json.asStr with
          | some text => if !text.isEmpty then some (wrap_as_text text) else none
          | none => none
      | none => none
    | "response.completed" =>
      let inputTokens := ((((event.getKey "response").bind
        (fun r => r.getKey "usage")).bind
        (fun u => u.getKey "input_tokens")).bind Json.asU64).getD 0
      let outputTokens := ((((event.getKey "response").bind
        (fun r => r.getKey "usage")).bind
        (fun u => u.getKey "output_tokens")).bind Json.asU64).getD 0
      if inputTokens > 0 ∨ outputTokens > 0 then
        some (mkUsageResult inputTokens outputTokens)
      else none
    | "response.created" | "response.in_progress" | "response.output_item.added"
    | "response.content_part.added" | "response.content_part.done" => none
    | _ =>
      match try_extract_text_from_value event with
      | some text => some (wrap_as_text text)
      | none => none

theorem leadsWith_nil_iff (pat : List Char) : leadsWith pat [] = true ↔ pat = [] := by
  cases pat <;> simp [leadsWith]

theorem leadsWith_head_eq {p : Char} {ps : List Char} {c : Char} {cs : List Char}
    (h : leadsWith (p :: ps) (c :: cs) = true) : p = c ∧ leadsWith ps cs = true := by
  simpa [leadsWith, Bool.and_eq_true] using h

/-- If no character of the middle block occurs in the (nonempty) pattern, a
prefix match against `A ++ D ++ B` cannot reach the middle block, so it is a
prefix match against `A` alone. -/
theorem leadsWith_append_mid (pat : List Char) (A D B : List Char)
    (hD : D ≠ []) (hdisj : ∀ c ∈ D, c ∉ pat)
    (h : leadsWith pat (A ++ (D ++ B)) = true) : leadsWith pat A = true := by
  induction pat generalizing A with
  | nil => simp [leadsWith]
  | cons p ps ih =>
    cases A with
    | nil =>
      cases D with
      | nil => exact absurd rfl hD
      | cons d ds =>
        exfalso
        have hpd := (leadsWith_head_eq (by simpa using h)).1
        exact hdisj d (by simp) (by simp [hpd])
    | cons a as =>
      have h' := leadsWith_head_eq (by simpa using h)
      have hps : leadsWith ps as = true :=
        ih as (fun c hc hmem => hdisj c hc (List.mem_cons_of_mem _ hmem)) h'.2
      simp [leadsWith, h'.1, hps]

/-- With `A = []`: if no character of `D` occurs in the nonempty pattern, any
occurrence inside `D ++ B` is an occurrence inside `B`. -/
theorem hasSub_append_left_digits (pat D B : List Char)
    (hpat : pat ≠ []) (hdisj : ∀ c ∈ D, c ∉ pat)
    (h : hasSub (D ++ B) pat = true) : hasSub B pat = true := by
  induction D with
  | nil => simpa using h
  | cons d ds ih =>
    have h' : leadsWith pat (d :: (ds ++ B)) = true ∨ hasSub (ds ++ B) pat = true := by
      simpa [hasSub, Bool.or_eq_true] using h
    rcases h' with h' | h'
    · exfalso
      cases pat with
      | nil => exact hpat rfl
      | cons p ps =>
        have hpd := (leadsWith_head_eq h').1
        exact hdisj d (by simp) (by simp [hpd])
    · exact ih (fun c hc => hdisj c (by simp [hc])) h'

/-- Substring splitting: if the nonempty middle block `D` shares no character
with the nonempty pattern, an occurrence in `A ++ D ++ B` lies in `A` or `B`. -/
theorem hasSub_append_mid (pat A D B : List Char)
    (hpat : pat ≠ []) (hD : D ≠ []) (hdisj : ∀ c ∈ D, c ∉ pat)
    (h : hasSub (A ++ (D ++ B)) pat = true) :
    hasSub A pat = true ∨ hasSub B pat = true := by
  induction A with
  | nil => exact Or.inr (hasSub_append_left_digits pat D B hpat hdisj (by simpa using h))
  | cons a as ih =>
    have h' : leadsWith pat (a :: (as ++ (D ++ B))) = true ∨
        hasSub (as ++ (D ++ B)) pat = true := by
      simpa [hasSub, Bool.or_eq_true] using h
    rcases h' with h' | h'
    · have : leadsWith pat (a :: as) = true :=
        leadsWith_append_mid pat (a :: as) D B hD hdisj (by simpa using h')
      cases pat with
      | nil => exact Or.inl (by simp [hasSub, leadsWith])
      | cons p ps => exact Or.inl (by simp [hasSub, this])
    · rcases ih h' with h'' | h''
      · exact Or.inl (by simp [hasSub, h''])
      · exact Or.inr h''

theorem digitChar_mem (d : Nat) : digitChar d ∈ decimalMidChars := by
  unfold digitChar
  repeat' split
  all_goals decide

theorem natDecimalCharsAux_mem (fuel n : Nat) :
    ∀ c ∈ natDecimalCharsAux fuel n, c ∈ decimalMidChars := by
  induction fuel generalizing n with
  | zero => intro c hc; simp [natDecimalCharsAux] at hc
  | succ fuel ih =>
    intro c hc
    rw [natDecimalCharsAux] at hc
    split at hc
    · simp at hc
      simpa [hc] using digitChar_mem n
    · rcases List.mem_append.1 hc with h | h
      · exact ih (n / 10) c h
      · simp at h
        simpa [h] using digitChar_mem (n % 10)

theorem natDecimalChars_mem (n : Nat) :
    ∀ c ∈ natDecimalChars n, c ∈ decimalMidChars :=
  natDecimalCharsAux_mem (n + 1) n

theorem natDecimalChars_ne_nil (n : Nat) : natDecimalChars n ≠ [] := by
  rw [natDecimalChars, natDecimalCharsAux]
  split <;> simp

theorem intDecimal_data_mem (i : Int) :
    ∀ c ∈ (intDecimal i).data, c ∈ decimalMidChars := by
  intro c hc
  rw [intDecimal] at hc
  split at hc
  · rcases (by simpa using hc : c = '-' ∨ c ∈ natDecimalChars i.natAbs) with h | h
    · simp [h, decimalMidChars]
    · exact natDecimalChars_mem _ c h
  · exact natDecimalChars_mem _ c (by simpa using hc)

theorem intDecimal_data_ne_nil (i : Int) : (intDecimal i).data ≠ [] := by
  rw [intDecimal]
  split
  · simp
  · simpa using natDecimalChars_ne_nil i.natAbs

theorem asciiLowerChar_decimal {c : Char} (h : c ∈ decimalMidChars) :
    asciiLowerChar c = c := by
  fin_cases h <;> decide

theorem stringData_append (s t : String) : (s ++ t).data = s.data ++ t.data := rfl

theorem asciiLower_append (s t : String) :
    asciiLower (s ++ t) = asciiLower s ++ asciiLower t := by
  simp [asciiLower, stringData_append]

theorem asciiLower_intDecimal_mem (i : Int) :
    ∀ c ∈ asciiLower (intDecimal i), c ∈ decimalMidChars := by
  intro c hc
  rcases List.mem_map.1 hc with ⟨c0, hc0, rfl⟩
  have h0 := intDecimal_data_mem i c0 hc0
  rw [asciiLowerChar_decimal h0]
  exact h0

theorem asciiLower_intDecimal_ne_nil (i : Int) : asciiLower (intDecimal i) ≠ [] := by
  simpa [asciiLower] using intDecimal_data_ne_nil i

/-- The lowered "execution failed" message never contains a pattern that is
disjoint from decimal characters and absent from the fixed message parts. -/
theorem hasSub_failed_msg_false (c : Int) (pat : List Char)
    (hpat : pat ≠ [])
    (hdisj : ∀ ch ∈ decimalMidChars, ch ∉ pat)
    (hA : hasSub (asciiLower "Provider session execution failed with exit code: "
        ++ asciiLower "Some(") pat = false)
    (hB : hasSub (asciiLower ")") pat = false) :
    hasSub (asciiLower ("Provider session execution failed with exit code: "
        ++ debugOptionCode (some c))) pat = false := by
  by_contra hcontra
  have htrue : hasSub (asciiLower ("Provider session execution failed with exit code: "
      ++ debugOptionCode (some c))) pat = true := by
    revert hcontra
    cases hval : hasSub (asciiLower ("Provider session execution failed with exit code: "
        ++ debugOptionCode (some c))) pat <;> simp
  rw [show ("Provider session execution failed with exit code: "
        ++ debugOptionCode (some c))
      = "Provider session execution failed with exit code: "
        ++ ("Some(" ++ (intDecimal c ++ ")")) from by
    simp [debugOptionCode, String.append_assoc]] at htrue
  rw [asciiLower_append, asciiLower_append, asciiLower_append] at htrue
  have hsplit := hasSub_append_mid pat
    (asciiLower "Provider session execution failed with exit code: " ++ asciiLower "Some(")
    (asciiLower (intDecimal c)) (asciiLower ")") hpat
    (asciiLower_intDecimal_ne_nil c)
    (fun ch hch => hdisj ch (asciiLower_intDecimal_mem c ch hch))
    (by simpa [List.append_assoc] using htrue)
  rcases hsplit with h | h
  · rw [hA] at h; exact Bool.false_ne_true h
  · rw [hB] at h; exact Bool.false_ne_true h

/-- The "execution failed with exit code" error message is always classified
as a plain error, for every exit code. -/
theorem completion_failed_is_error (oc : Option Int) :
    completion_status_for_result
      (.error ("Provider session execution failed with exit code: "
        ++ debugOptionCode oc)) = .error := by
  cases oc with
  | none => decide
  | some c =>
    have h1 := hasSub_failed_msg_false c "cancelled".data (by decide) (by decide)
      (by decide) (by decide)
    have h2 := hasSub_failed_msg_false c "canceled".data (by decide) (by decide)
      (by decide) (by decide)
    have h3 := hasSub_failed_msg_false c "interrupted".data (by decide) (by decide)
      (by decide) (by decide)
    simp only [completion_status_for_result, h1, h2, h3]
    simp

/-! ## Claim theorems -/

/-- C7: `requires_resnapshot(since, current)` returns true exactly when
`since + 1 < current` in the mathematical (non-wrapping) reading, and the
WebSocket loop sends an immediate `sync.resnapshot_required` envelope with
reason `sequence_gap` exactly in that case. -/
theorem requires_resnapshot_iff (since current : Nat)
    (hs : since < 2 ^ 64) (hc : current < 2 ^ 64) :
    (requires_resnapshot since current = true ↔ since + 1 < current)
    ∧ websocketInitialResync since current
      = (if since + 1 < current then some ⟨"sequence_gap", since⟩ else none) := by
  have h64 : (2 : Nat) ^ 64 = 18446744073709551616 := by norm_num
  rw [h64] at hs hc
  have hiff : requires_resnapshot since current = true ↔ since + 1 < current := by
    simp only [requires_resnapshot, saturatingAddU64, u64Max, h64,
      decide_eq_true_eq]
    omega
  refine ⟨hiff, ?_⟩
  unfold websocketInitialResync
  by_cases h : since + 1 < current
  · rw [if_pos (hiff.mpr h), if_pos h]
  · rw [if_neg (fun ht => h (hiff.mp ht)), if_neg h]

/-- C7 witness: a client two behind the current sequence receives the
`sequence_gap` resync envelope. -/
theorem requires_resnapshot_iff_witness :
    requires_resnapshot 0 2 = true
    ∧ websocketInitialResync 0 2 = some ⟨"sequence_gap", 0⟩ := by
  have h := requires_resnapshot_iff 0 2 (by norm_num) (by norm_num)
  exact ⟨h.1.mpr (by norm_num), by rw [h.2]; norm_num⟩

/-- C2 counterexample: a codex run whose child never produces any output does
not reach the 30-second timeout branch (which is what kills the process and
marks the row failed), because `first_output` is initialized to
`provider_id != "claude"`, refuting "regardless of provider". -/
theorem codex_silent_run_does_not_time_out :
    monitorTimesOut "codex" (fun _ => false) = false := by decide

/-- C2 (amended): the 30-second no-output timeout branch is reached iff the
provider is claude and no stdout line arrived at any of the 300 polls; when
it is reached, the running row is marked failed. First output within the
window makes the monitor proceed normally. -/
theorem first_output_timeout_amended (providerId : String)
    (outputSeenBy : Nat → Bool) (liveOutput : String) (row : AgentRunRow)
    (hrow : row.status = "running") :
    (monitorTimesOut providerId outputSeenBy = true ↔
      providerId = "claude" ∧ ∀ i, i < 300 → outputSeenBy i = false)
    ∧ (timeoutRowUpdate liveOutput row).status = "failed" := by
  constructor
  · simp only [monitorTimesOut, firstOutputAt, firstOutputInit, List.all_eq_true,
      List.mem_range, Bool.not_eq_true', Bool.or_eq_false_iff,
      bne_eq_false_iff_eq]
    constructor
    · intro h
      exact ⟨(h 0 (by norm_num)).1, fun i hi => (h i hi).2⟩
    · intro h i hi
      exact ⟨h.1, h.2 i hi⟩
  · simp [timeoutRowUpdate, hrow]

/-- C2 witness: a claude run with no output at any poll reaches the timeout
branch, and the timeout update marks a running row failed. -/
theorem first_output_timeout_amended_witness :
    monitorTimesOut "claude" (fun _ => false) = true
    ∧ (timeoutRowUpdate "o" ⟨"running", some 3, "", false⟩).status = "failed" := by
  have h := first_output_timeout_amended "claude" (fun _ => false) "o"
    ⟨"running", some 3, "", false⟩ rfl
  exact ⟨h.1.mpr ⟨rfl, fun i _ => rfl⟩, h.2⟩

/-- C3 counterexample: for an Execute run against claude, the supervisor's
argv is not the claimed bit-exact list — `build_provider_args` always inserts
a `--system-prompt` pair after the prompt. -/
theorem claude_supervisor_argv_not_bare :
    build_provider_args "claude" "hi" "sonnet" (some "sp") none
      ≠ ["-p", "hi", "--model", "sonnet", "--output-format", "stream-json",
         "--verbose", "--dangerously-skip-permissions"] := by decide

/-- C3 (amended): the supervisor's claude Execute argv is
`-p <prompt> --system-prompt <sp-or-empty> [--model <m>] --output-format
stream-json --verbose --dangerously-skip-permissions`, with `--model`
appearing per the model rule; the registry builder in `providers/claude.rs`
produces exactly the claimed shape (without `--system-prompt`). -/
theorem claude_argv_amended (task model : String) (systemPrompt : Option String)
    (reasoningEffort : Option String) (prompt : String)
    (sessionId : Option String) :
    build_provider_args "claude" task model systemPrompt reasoningEffort
      = ["-p", task, "--system-prompt", systemPrompt.getD ""]
        ++ (if (rustTrim model).isEmpty || eqIgnoreAsciiCase (rustTrim model) "default"
            then [] else ["--model", rustTrim model])
        ++ ["--output-format", "stream-json", "--verbose",
            "--dangerously-skip-permissions"]
    ∧ claude_build_args ⟨.execute, prompt, model, sessionId, reasoningEffort⟩
      = .ok (["-p", prompt]
        ++ (if (rustTrim model).isEmpty || eqIgnoreAsciiCase (rustTrim model) "default"
            then [] else ["--model", rustTrim model])
        ++ ["--output-format", "stream-json", "--verbose",
            "--dangerously-skip-permissions"]) := by
  constructor
  · simp only [build_provider_args]
    cases h : ((rustTrim model).isEmpty || eqIgnoreAsciiCase (rustTrim model) "default") with
    | true =>
      rcases Bool.or_eq_true_iff.1 h with h1 | h1 <;> simp [h, h1]
    | false =>
      rcases Bool.or_eq_false_iff.1 h with ⟨h1, h2⟩
      simp [h, h1, h2]
  · simp only [claude_build_args, append_optional_model_arg]
    cases h : ((rustTrim model).isEmpty || eqIgnoreAsciiCase (rustTrim model) "default") with
    | true =>
      rcases Bool.or_eq_true_iff.1 h with h1 | h1 <;>
        simp [h, h1, Except.pure, pure, Except.bind, bind]
    | false =>
      rcases Bool.or_eq_false_iff.1 h with ⟨h1, h2⟩
      simp [h, h1, h2, Except.pure, pure, Except.bind, bind]

/-- C4 counterexample: for codex, a whitespace-only model string does yield a
`--model` argument pair (the codex builder checks the untrimmed model for
emptiness), refuting "a whitespace-only model never yields a --model
argument". -/
theorem codex_whitespace_model_yields_flag :
    codex_build_args ⟨.execute, "p", " ", none, none⟩
      = .ok ["exec", "--json", "p", "--model", " "]
    ∧ rustTrim " " = "" :=
  ⟨rfl, rfl⟩

/-- C4 (amended): `append_optional_model_arg` appends `--model <trimmed>` iff
the trimmed model is non-empty and not case-insensitively "default"; the
codex builder instead appends `--model <untrimmed>` iff the untrimmed model
is non-empty and its ASCII-lowercase form contains none of
{default, sonnet, opus, haiku, claude} as a substring — so a whitespace-only
model yields `--model` for codex but for no other provider. -/
theorem model_flag_amended (args0 : List String) (model : String)
    (request : ProviderCommandRequest) :
    append_optional_model_arg args0 model
      = args0 ++ (if (rustTrim model).isEmpty
            || eqIgnoreAsciiCase (rustTrim model) "default"
          then [] else ["--model", rustTrim model])
    ∧ codex_build_args request
      = .ok (["exec", "--json", request.prompt]
        ++ (if !request.model.isEmpty
              && !(codexClaudeModels.any fun v =>
                    hasSub (asciiLower request.model) v.data)
            then ["--model", request.model] else [])
        ++ (match sanitize_reasoning_effort request.reasoning_effort with
            | some effort => ["-c", "model_reasoning_effort=\"" ++ effort ++ "\""]
            | none => [])) := by
  constructor
  · simp only [append_optional_model_arg]
    split <;> simp_all
  · simp only [codex_build_args]
    split <;> split <;> simp_all

/-- C1 counterexample: in the desktop supervisor, a child that exits with
code 130 is finalized with persisted status "failed" (the monitor task only
consults `ExitStatus::success()`), not "cancelled" as the claim states. -/
theorem exit130_persists_failed :
    (spawnAgentFinalUpdate (ExitStatus.exited 130).success "out"
      ⟨"running", some 7, "", false⟩).status = "failed"
    ∧ ("failed" : String) ≠ "cancelled" := by
  exact ⟨rfl, by decide⟩

/-- C1 (amended): the desktop supervisor (`spawn_agent_system`) classifies the
exit binarily — success persists "completed", any non-success exit (including
codes 130/143) persists "failed" — and emits the boolean
`ExitStatus::success()` as its completion payload; the claimed three-way
classification (success ↦ success, 130/143 ↦ cancelled, other ↦ error) holds
for the web-server provider-session path, via `map_exit_status_to_result`
composed with `completion_status_for_result`. -/
theorem exit_classification_amended (st : ExitStatus) (finalOutput : String)
    (row : AgentRunRow) (hrow : row.status = "running") :
    (spawnAgentFinalUpdate st.success finalOutput row).status
      = (if st.success then "completed" else "failed")
    ∧ completion_status_for_result (map_exit_status_to_result st)
      = (if st.success then .success
         else if st.code = some 130 ∨ st.code = some 143 then .cancelled
         else .error) := by
  constructor
  · cases h : st.success <;> simp [spawnAgentFinalUpdate, hrow, h]
  · cases st with
    | exited c =>
      by_cases h0 : c = 0
      · subst h0
        rfl
      · have hsucc : (ExitStatus.exited c).success = false := by
          simp [ExitStatus.success, h0]
        by_cases h130 : c = 130
        · subst h130; decide
        · by_cases h143 : c = 143
          · subst h143; decide
          · have hcond : ¬((ExitStatus.exited c).code = some 130
                ∨ (ExitStatus.exited c).code = some 143) := by
              simp [ExitStatus.code, h130, h143]
            rw [map_exit_status_to_result, if_neg (by simp [hsucc]), if_neg hcond]
            rw [if_neg (by simp [hsucc]), if_neg hcond]
            simpa [ExitStatus.code] using completion_failed_is_error (some c)
    | signaled s =>
      have hcond : ¬((ExitStatus.signaled s).code = some 130
          ∨ (ExitStatus.signaled s).code = some 143) := by
        simp [ExitStatus.code]
      rw [map_exit_status_to_result, if_neg (by simp [ExitStatus.success]),
        if_neg hcond]
      rw [if_neg (by simp [ExitStatus.success]), if_neg hcond]
      simpa [ExitStatus.code] using completion_failed_is_error none

/-- C1 witness: at exit code 130 the desktop row is finalized "failed" while
the web-server completion status is cancelled; at exit code 7 both paths
report failure/error. -/
theorem exit_classification_amended_witness :
    (spawnAgentFinalUpdate (ExitStatus.exited 130).success "o"
      ⟨"running", some 9, "", false⟩).status = "failed"
    ∧ completion_status_for_result
        (map_exit_status_to_result (ExitStatus.exited 130)) = .cancelled
    ∧ completion_status_for_result
        (map_exit_status_to_result (ExitStatus.exited 7)) = .error := by
  have h130 := exit_classification_amended (ExitStatus.exited 130) "o"
    ⟨"running", some 9, "", false⟩ rfl
  have h7 := exit_classification_amended (ExitStatus.exited 7) "o"
    ⟨"running", some 9, "", false⟩ rfl
  refine ⟨by rw [h130.1]; decide, by rw [h130.2]; decide, by rw [h7.2]; decide⟩

/-- C5 counterexample: a second `kill_agent_session` call — after the first
has killed the run (so the registry no longer holds it) and set the row to
"cancelled" — returns an error: the pid fallback query
`SELECT pid … WHERE id = ? AND status = 'running'` matches no row and the
`QueryReturnedNoRows` error is propagated with `?`, refuting "returns without
error". -/
theorem second_kill_call_errors :
    kill_agent_session false "" (some ⟨"cancelled", some 42, "out", true⟩)
      = .error "Query returned no rows" := rfl

/-- C5 (amended): a first call that kills via the registry cancels a running
row and reports success; a repeat call, once the run is unregistered and the
row is no longer "running", leaves the persisted row untouched but returns
the `QueryReturnedNoRows` error instead of returning without error. -/
theorem kill_agent_session_amended (liveOutput : String) (row : AgentRunRow)
    (hfirst : row.status = "running") (row2 : AgentRunRow)
    (hsecond : row2.status ≠ "running") :
    kill_agent_session true liveOutput (some row)
      = .ok (true, some { row with
          status := "cancelled",
          output := if liveOutput ≠ "" then liveOutput else row.output,
          completedAt := true })
    ∧ kill_agent_session false liveOutput (some row2) = .error rusqliteNoRows := by
  constructor
  · simp [kill_agent_session, cancelRowUpdate, hfirst, pure, Except.pure,
      bind, Except.bind]
  · simp [kill_agent_session, cancelRowUpdate, hsecond, pure, Except.pure,
      throw, throwThe, MonadExceptOf.throw, Except.map, Functor.map,
      bind, Except.bind]

/-- C5 witness: concrete first and second calls. -/
theorem kill_agent_session_amended_witness :
    kill_agent_session true "lo" (some ⟨"running", some 1, "", false⟩)
      = .ok (true, some ⟨"cancelled", some 1, "lo", true⟩)
    ∧ kill_agent_session false "lo" (some ⟨"cancelled", some 1, "x", true⟩)
      = .error rusqliteNoRows := by
  have h := kill_agent_session_amended "lo" ⟨"running", some 1, "", false⟩ rfl
    ⟨"cancelled", some 1, "x", true⟩ (by decide)
  exact ⟨by rw [h.1]; rfl, h.2⟩

theorem u64Wrap_eq_of_le {n : Nat} (h : n ≤ u64Max) : u64Wrap n = n := by
  have hp : 0 < 2 ^ 64 := pow_pos (by norm_num) 64
  unfold u64Max at h
  unfold u64Wrap
  exact Nat.mod_eq_of_lt (by omega)

theorem brokerRun_seqs (ops : List BrokerOp) (seq : Nat)
    (hbound : seq + brokerEmissionTotal ops ≤ u64Max) :
    (brokerRun seq ops).map BrokerEmission.seq
      = List.range' (seq + 1) (brokerEmissionTotal ops) := by
  induction ops generalizing seq with
  | nil => simp [brokerRun, brokerEmissionTotal]
  | cons op rest ih =>
    cases op with
    | eventOp ty p =>
      have htot : brokerEmissionTotal (BrokerOp.eventOp ty p :: rest)
          = brokerEmissionTotal rest + 1 := by
        simp [brokerEmissionTotal, BrokerOp.emissions]
        omega
      rw [htot] at hbound
      have hb1 : u64Wrap (seq + 1) = seq + 1 := u64Wrap_eq_of_le (by omega)
      rw [htot, List.range'_succ]
      simpa [brokerRun, publish_event, next_sequence, hb1, BrokerEmission.seq]
        using ih (seq + 1) (by omega)
    | snapshotOp st =>
      have htot : brokerEmissionTotal (BrokerOp.snapshotOp st :: rest)
          = brokerEmissionTotal rest + 1 + 1 := by
        simp [brokerEmissionTotal, BrokerOp.emissions]
        omega
      rw [htot] at hbound
      have hb1 : u64Wrap (seq + 1) = seq + 1 := u64Wrap_eq_of_le (by omega)
      have hb2 : u64Wrap (seq + 1 + 1) = seq + 1 + 1 := u64Wrap_eq_of_le (by omega)
      have hb2' : u64Wrap (seq + 2) = seq + 2 := u64Wrap_eq_of_le (by omega)
      rw [htot, List.range'_succ, List.range'_succ]
      simpa [brokerRun, publish_snapshot, publish_event, next_sequence, hb1,
        hb2, hb2', BrokerEmission.seq] using ih (seq + 2) (by omega)

theorem brokerRun_snapshot_next (ops : List BrokerOp) (seq i : Nat)
    (snap : SnapshotV1)
    (hbound : seq + brokerEmissionTotal ops ≤ u64Max)
    (h : (brokerRun seq ops)[i]? = some (.snapshot snap)) :
    (brokerRun seq ops)[i + 1]?
      = some (.event { version := 1, sequence := snap.sequence + 1,
                       event_type := "snapshot.updated",
                       payload := Json.obj
                         [("sequence", Json.num (snap.sequence : Int))] }) := by
  induction ops generalizing seq i with
  | nil => simp [brokerRun] at h
  | cons op rest ih =>
    cases op with
    | eventOp ty p =>
      have htot : brokerEmissionTotal (BrokerOp.eventOp ty p :: rest)
          = brokerEmissionTotal rest + 1 := by
        simp [brokerEmissionTotal, BrokerOp.emissions]
        omega
      rw [htot] at hbound
      have hb1 : u64Wrap (seq + 1) = seq + 1 := u64Wrap_eq_of_le (by omega)
      cases i with
      | zero => simp [brokerRun, publish_event, next_sequence, hb1] at h
      | succ j =>
        have h' : (brokerRun (seq + 1) rest)[j]? = some (.snapshot snap) := by
          simpa [brokerRun, publish_event, next_sequence, hb1] using h
        simpa [brokerRun, publish_event, next_sequence, hb1]
          using ih (seq + 1) j (by omega) h'
    | snapshotOp st =>
      have htot : brokerEmissionTotal (BrokerOp.snapshotOp st :: rest)
          = brokerEmissionTotal rest + 1 + 1 := by
        simp [brokerEmissionTotal, BrokerOp.emissions]
        omega
      rw [htot] at hbound
      have hb1 : u64Wrap (seq + 1) = seq + 1 := u64Wrap_eq_of_le (by omega)
      have hb2 : u64Wrap (seq + 1 + 1) = seq + 1 + 1 := u64Wrap_eq_of_le (by omega)
      have hb2' : u64Wrap (seq + 2) = seq + 2 := u64Wrap_eq_of_le (by omega)
      cases i with
      | zero =>
        have hsnap : snap = { version := 1, sequence := seq + 1, state := st } := by
          have hcopy := h
          simp [brokerRun, publish_snapshot, publish_event, next_sequence,
            hb1, hb2, hb2'] at hcopy
          exact hcopy.symm
        subst hsnap
        simp [brokerRun, publish_snapshot, publish_event, next_sequence,
          hb1, hb2, hb2']
      | succ j =>
        cases j with
        | zero =>
          simp [brokerRun, publish_snapshot, publish_event, next_sequence,
            hb1, hb2, hb2'] at h
        | succ k =>
          have h' : (brokerRun (seq + 2) rest)[k]? = some (.snapshot snap) := by
            simpa [brokerRun, publish_snapshot, publish_event, next_sequence,
              hb1, hb2, hb2'] using h
          simpa [brokerRun, publish_snapshot, publish_event, next_sequence,
            hb1, hb2, hb2'] using ih (seq + 2) k (by omega) h'

/-- C6: for a single broker instance started at sequence 0, over any
operation sequence whose emission count stays within the u64 range of the
wrapping `fetch_add` counter, the sequence numbers across all published
snapshots and events are exactly 1, 2, 3, … (strictly increasing and dense:
each emission takes the previous sequence plus one), and every snapshot of
sequence N is immediately followed by a `snapshot.updated` envelope of
sequence N + 1 whose payload carries `{sequence: N}`. -/
theorem mobile_sync_sequences_dense (ops : List BrokerOp)
    (hbound : brokerEmissionTotal ops ≤ u64Max) :
    ((brokerRun 0 ops).map BrokerEmission.seq
        = List.range' 1 (brokerEmissionTotal ops))
    ∧ ∀ i snap, (brokerRun 0 ops)[i]? = some (.snapshot snap) →
        (brokerRun 0 ops)[i + 1]?
          = some (.event { version := 1, sequence := snap.sequence + 1,
                           event_type := "snapshot.updated",
                           payload := Json.obj
                             [("sequence", Json.num (snap.sequence : Int))] }) :=
  ⟨brokerRun_seqs ops 0 (by simpa using hbound),
   fun i snap h =>
     brokerRun_snapshot_next ops 0 i snap (by simpa using hbound) h⟩

/-- C6 witness: a snapshot publish followed by an event publish emits
sequences 1, 2, 3, with the snapshot's follow-up envelope at sequence 2
carrying payload sequence 1. -/
theorem mobile_sync_sequences_dense_witness :
    ((brokerRun 0 [BrokerOp.snapshotOp Json.null,
        BrokerOp.eventOp "agent.update" Json.null]).map BrokerEmission.seq
      = [1, 2, 3])
    ∧ (brokerRun 0 [BrokerOp.snapshotOp Json.null,
        BrokerOp.eventOp "agent.update" Json.null])[1]?
      = some (.event { version := 1, sequence := 2,
                       event_type := "snapshot.updated",
                       payload := Json.obj [("sequence", Json.num 1)] }) := by
  have h := mobile_sync_sequences_dense
    [BrokerOp.snapshotOp Json.null, BrokerOp.eventOp "agent.update" Json.null]
    (by decide)
  constructor
  · rw [h.1]
    rfl
  · have hs : (brokerRun 0 [BrokerOp.snapshotOp Json.null,
        BrokerOp.eventOp "agent.update" Json.null])[0]?
        = some (.snapshot { version := 1, sequence := 1, state := Json.null }) := rfl
    simpa using h.2 0 { version := 1, sequence := 1, state := Json.null } hs

/-- C8: on the next sync scan of a tracked file, if the size shrank below the
stored cursor offset (truncated) or the size equals the recorded size while
the mtime differs (rewritten in place), every `usage_events` row with that
`source_path` is deleted and reading restarts from offset 0 and line 0;
otherwise reading resumes from the stored offset and line. -/
theorem usage_rewrite_detection (events : List UsageEventRow)
    (sourcePath : String) (size mtime : Int) (row : SourceFileRow) :
    (size < row.last_offset
        ∨ (size = row.size_bytes ∧ mtime ≠ row.modified_unix_ms) →
      process_file_start events sourcePath size mtime (some row)
        = (events.filter (fun e => e.source_path ≠ sourcePath), 0, 0)
      ∧ ∀ e ∈ (process_file_start events sourcePath size mtime (some row)).1,
          e.source_path ≠ sourcePath)
    ∧ (¬(size < row.last_offset
        ∨ (size = row.size_bytes ∧ mtime ≠ row.modified_unix_ms)) →
      process_file_start events sourcePath size mtime (some row)
        = (events, row.last_offset, row.last_line)) := by
  constructor
  · intro h
    have heq : process_file_start events sourcePath size mtime (some row)
        = (events.filter (fun e => e.source_path ≠ sourcePath), 0, 0) := by
      simp only [process_file_start]
      rw [if_pos h]
    refine ⟨heq, ?_⟩
    rw [heq]
    intro e he
    exact of_decide_eq_true (List.mem_filter.1 he).2
  · intro h
    simp only [process_file_start]
    rw [if_neg h]

/-- C8 witness: a file of unchanged size but changed mtime purges its rows
and resets the cursor, while an untouched file resumes from its cursor. -/
theorem usage_rewrite_detection_witness :
    process_file_start
        [{ event_uid := "u1", source_path := "a", source_line := 1,
           timestamp := "t", event_date := "d", model := "m",
           input_tokens := 1, output_tokens := 2, cache_creation_tokens := 0,
           cache_read_tokens := 0, cost := 0, session_id := "s",
           project_path := "p", project_name := "n" },
         { event_uid := "u2", source_path := "b", source_line := 1,
           timestamp := "t", event_date := "d", model := "m",
           input_tokens := 1, output_tokens := 2, cache_creation_tokens := 0,
           cache_read_tokens := 0, cost := 0, session_id := "s",
           project_path := "p", project_name := "n" }]
        "a" 10 6 (some { size_bytes := 10, modified_unix_ms := 5,
                         last_offset := 4, last_line := 2 })
      = ([{ event_uid := "u2", source_path := "b", source_line := 1,
            timestamp := "t", event_date := "d", model := "m",
            input_tokens := 1, output_tokens := 2, cache_creation_tokens := 0,
            cache_read_tokens := 0, cost := 0, session_id := "s",
            project_path := "p", project_name := "n" }], 0, 0) := by
  have h := usage_rewrite_detection
    [{ event_uid := "u1", source_path := "a", source_line := 1,
       timestamp := "t", event_date := "d", model := "m",
       input_tokens := 1, output_tokens := 2, cache_creation_tokens := 0,
       cache_read_tokens := 0, cost := 0, session_id := "s",
       project_path := "p", project_name := "n" },
     { event_uid := "u2", source_path := "b", source_line := 1,
       timestamp := "t", event_date := "d", model := "m",
       input_tokens := 1, output_tokens := 2, cache_creation_tokens := 0,
       cache_read_tokens := 0, cost := 0, session_id := "s",
       project_path := "p", project_name := "n" }]
    "a" 10 6 { size_bytes := 10, modified_unix_ms := 5,
               last_offset := 4, last_line := 2 }
  rw [(h.1 (Or.inr ⟨rfl, by decide⟩)).1]
  rfl

theorem transform_item_completed_shape (event out : Json)
    (h : transform_item_completed event = some out) :
    ∃ t, out = wrap_as_text t := by
  simp only [transform_item_completed] at h
  repeat' split at h
  all_goals
    first
      | exact Option.noConfusion h
      | exact ⟨_, (Option.some.inj h).symm⟩

/-- C9: every line the codex transform emits is either the canonical
assistant text envelope (type "assistant", `message.content` a one-element
array holding `{type: "text", text: <string>}`) or the usage result envelope
(type "result", `usage` with numeric `input_tokens` and `output_tokens`); no
other output shape is ever produced. `wrap_as_text` and `mkUsageResult` are
by definition exactly those two shapes. -/
theorem codex_transform_output_shape (line : CodexLine) (out : Json)
    (h : transform_codex_line line = some out) :
    (∃ text, out = wrap_as_text text)
    ∨ (∃ inputTokens outputTokens : Nat, out = mkUsageResult inputTokens outputTokens) := by
  cases line with
  | empty => exact absurd h (by simp [transform_codex_line])
  | notJson s =>
    simp only [transform_codex_line] at h
    exact Or.inl ⟨s, (Option.some.inj h).symm⟩
  | jsonLine event =>
    simp only [transform_codex_line] at h
    repeat' split at h
    all_goals
      first
        | exact Option.noConfusion h
        | exact Or.inl (transform_item_completed_shape event out h)
        | exact Or.inl ⟨_, (Option.some.inj h).symm⟩
        | exact Or.inr ⟨_, _, (Option.some.inj h).symm⟩

/-- C9 witness: a real codex `turn.completed` event yields the result
envelope, and a reasoning item yields the assistant text envelope. -/
theorem codex_transform_output_shape_witness :
    (∃ text, wrap_as_text "[thinking] ok" = wrap_as_text text)
    ∨ (∃ inputTokens outputTokens : Nat,
        wrap_as_text "[thinking] ok" = mkUsageResult inputTokens outputTokens) :=
  codex_transform_output_shape
    (.jsonLine (.obj [("type", .str "item.completed"),
      ("item", .obj [("type", .str "reasoning"), ("text", .str "ok")])]))
    (wrap_as_text "[thinking] ok") rfl

theorem mem_orderedInsertBy (le : ProjectUsage → ProjectUsage → Bool)
    (a b : ProjectUsage) (l : List ProjectUsage) :
    b ∈ orderedInsertBy le a l ↔ b = a ∨ b ∈ l := by
  induction l with
  | nil => simp [orderedInsertBy]
  | cons c l ih =>
    simp only [orderedInsertBy]
    split
    · simp
    · simp [ih]
      tauto

theorem mem_sortRowsBy (le : ProjectUsage → ProjectUsage → Bool)
    (a : ProjectUsage) (l : List ProjectUsage) :
    a ∈ sortRowsBy le l ↔ a ∈ l := by
  induction l with
  | nil => simp [sortRowsBy]
  | cons c l ih => simp [sortRowsBy, mem_orderedInsertBy, ih]

/-- C10: every element returned by `query_session_stats` carries the group
session_id in its `project_name` field (column 1 of the SELECT is
`session_id`), and its `session_count` field is `COUNT(*)` — the number of
usage events in the `(project_path, session_id)` group — not a count of
distinct sessions. -/
theorem session_stats_fields (events : List UsageEventRow)
    (sinceDate untilDate : Option String) (order : Option String)
    (limit offset : Option Nat) (p : ProjectUsage)
    (h : p ∈ query_session_stats events sinceDate untilDate order limit offset) :
    ∃ projectPath sessionId : String,
      p.project_path = projectPath ∧ p.project_name = sessionId ∧
      p.session_count
        = ((sessionStatsFiltered events sinceDate untilDate).filter
            (fun e => e.project_path == projectPath
              && e.session_id == sessionId)).length := by
  have hsorted : p ∈ ((sessionStatsFiltered events sinceDate untilDate).map
      (fun e => (e.project_path, e.session_id))).dedup.map
      (sessionStatsRow (sessionStatsFiltered events sinceDate untilDate)) := by
    have h1 := List.mem_of_mem_take h
    have h2 := List.mem_of_mem_drop h1
    simp only [query_session_stats] at h2
    split at h2
    · exact (mem_sortRowsBy _ _ _).1 h2
    · exact (mem_sortRowsBy _ _ _).1 h2
  rcases List.mem_map.1 hsorted with ⟨key, _, hkey⟩
  refine ⟨key.1, key.2, ?_, ?_, ?_⟩
  · rw [← hkey]; rfl
  · rw [← hkey]; rfl
  · rw [← hkey]
    simp [sessionStatsRow]

/-- C10 witness: a table with two events of one session group yields a single
row whose `project_name` is the session id and whose `session_count` is the
number of events (2), not the number of distinct sessions (1). -/
theorem session_stats_fields_witness :
    ∃ projectPath sessionId : String,
      (ProjectUsage.mk "p" "s" 3 10 2 "t2").project_path = projectPath
      ∧ (ProjectUsage.mk "p" "s" 3 10 2 "t2").project_name = sessionId
      ∧ (ProjectUsage.mk "p" "s" 3 10 2 "t2").session_count
        = ((sessionStatsFiltered
            [{ event_uid := "u1", source_path := "a", source_line := 1,
               timestamp := "t1", event_date := "d", model := "m",
               input_tokens := 1, output_tokens := 2,
               cache_creation_tokens := 0, cache_read_tokens := 0,
               cost := 1, session_id := "s", project_path := "p",
               project_name := "n" },
             { event_uid := "u2", source_path := "a", source_line := 2,
               timestamp := "t2", event_date := "d", model := "m",
               input_tokens := 3, output_tokens := 4,
               cache_creation_tokens := 0, cache_read_tokens := 0,
               cost := 2, session_id := "s", project_path := "p",
               project_name := "n" }] none none).filter
            (fun e => e.project_path == projectPath
              && e.session_id == sessionId)).length := by
  apply session_stats_fields
    [{ event_uid := "u1", source_path := "a", source_line := 1,
       timestamp := "t1", event_date := "d", model := "m",
       input_tokens := 1, output_tokens := 2,
       cache_creation_tokens := 0, cache_read_tokens := 0,
       cost := 1, session_id := "s", project_path := "p",
       project_name := "n" },
     { event_uid := "u2", source_path := "a", source_line := 2,
       timestamp := "t2", event_date := "d", model := "m",
       input_tokens := 3, output_tokens := 4,
       cache_creation_tokens := 0, cache_read_tokens := 0,
       cost := 2, session_id := "s", project_path := "p",
       project_name := "n" }] none none none none none
  decide

end Opcode
